import Mathlib

/-!
Shallow embedding of the enrollment / capacity / waitlist / check-in core of
src/codigo_sqlite_colab.py (Sistema de Gestão de Eventos Culturais).

The SQLite tables eventos, inscricoes and lista_espera become lists of
records; each operation is a pure function from a database state to a
result paired with the next database state, translated statement by
statement from the Python functions inscrever_participante,
cancelar_inscricao, realizar_checkin and adicionar_lista_espera.
An UPDATE becomes a map over the table list, a SELECT with fetchone
becomes a find?, rowcount becomes a countP, and sqlite3.IntegrityError
(raised by the UNIQUE constraints on (participante_id, evento_id) and on
codigo_confirmacao) becomes an explicit membership test guarding the
insert; when the Python path ends with conn.close() and no commit, the
state is returned unchanged (rollback).  The random confirmation code of
gerar_codigo_confirmacao and the CURRENT_TIMESTAMP of the check-in are
taken as explicit parameters of the operations.
-/

/-- The status column of the inscricoes table:
CHECK(status IN ('confirmada', 'cancelada', 'presente')). -/
inductive StatusInscricao where
  | confirmada
  | cancelada
  | presente
deriving DecidableEq

/-- A row of the eventos table, restricted to the columns the core
reads and writes: id, capacidade_maxima and vagas_disponiveis.
criar_evento inserts vagas_disponiveis = capacidade_maxima. -/
structure Evento where
  id : Nat
  capacidade_maxima : Int
  vagas_disponiveis : Int
deriving DecidableEq

/-- A row of the inscricoes table (columns used by the core). -/
structure Inscricao where
  id : Nat
  participante_id : Nat
  evento_id : Nat
  status : StatusInscricao
  codigo_confirmacao : String
  presente : Bool
  data_checkin : Option Nat
deriving DecidableEq

/-- A row of the lista_espera table (columns used by the core). -/
structure Espera where
  id : Nat
  participante_id : Nat
  evento_id : Nat
  posicao : Int
  notificado : Bool
deriving DecidableEq

/-- The database state: the three tables of the core, plus the
AUTOINCREMENT counters for the two tables the core inserts into. -/
structure DB where
  eventos : List Evento
  inscricoes : List Inscricao
  lista_espera : List Espera
  next_inscricao_id : Nat
  next_espera_id : Nat
deriving DecidableEq

/-- Result of inscrever_participante.  The Python returns None after
printing "Evento não encontrado", the string 'lista_espera' when there
are no slots, None after printing "Você já está inscrito" on
IntegrityError, and the new row id on success. -/
inductive InscreverResultado where
  | evento_nao_encontrado
  | sem_vagas
  | ja_inscrito
  | inscrito (inscricao_id : Nat) (codigo : String)
deriving DecidableEq

/-- True on the rows counted as occupying a slot of event e:
status confirmada or presente. -/
def contaVaga (e : Nat) (i : Inscricao) : Bool :=
  i.evento_id == e && (i.status == .confirmada || i.status == .presente)

/-- confirmed_count of event e: the number of enrollments of e in state
confirmada or presente. -/
def confirmedCount (db : DB) (e : Nat) : Nat :=
  db.inscricoes.countP (contaVaga e)

/-- UPDATE eventos SET vagas_disponiveis = vagas_disponiveis - 1
WHERE id = ?, applied to one row. -/
def vagaMenos (evento_id : Nat) (e : Evento) : Evento :=
  if e.id == evento_id then
    { e with vagas_disponiveis := e.vagas_disponiveis - 1 }
  else e

/-- The row inserted by INSERT INTO inscricoes (participante_id,
evento_id, codigo_confirmacao) VALUES (?, ?, ?): the remaining columns
take their schema defaults status = 'confirmada', presente = 0,
data_checkin = NULL, and id is the next AUTOINCREMENT value. -/
def novaInscricao (db : DB) (participante_id evento_id : Nat)
    (codigo : String) : Inscricao :=
  { id := db.next_inscricao_id
    participante_id := participante_id
    evento_id := evento_id
    status := .confirmada
    codigo_confirmacao := codigo
    presente := false
    data_checkin := none }

/-- inscrever_participante(participante_id, evento_id) with the code
produced by gerar_codigo_confirmacao passed in as codigo.
SELECT vagas_disponiveis FROM eventos WHERE id = ?; if no row, fail;
if vagas_disponiveis <= 0, answer 'lista_espera'; otherwise INSERT INTO
inscricoes (IntegrityError when the (participante_id, evento_id) pair or
the codigo already exists, in which case nothing is committed), then
UPDATE eventos SET vagas_disponiveis = vagas_disponiveis - 1. -/
def inscrever_participante (db : DB) (participante_id evento_id : Nat)
    (codigo : String) : InscreverResultado × DB :=
  match db.eventos.find? (fun ev => ev.id == evento_id) with
  | none => (.evento_nao_encontrado, db)
  | some ev =>
    if ev.vagas_disponiveis ≤ 0 then
      (.sem_vagas, db)
    else if db.inscricoes.any (fun i =>
          i.participante_id == participante_id && i.evento_id == evento_id)
        || db.inscricoes.any (fun i => i.codigo_confirmacao == codigo) then
      (.ja_inscrito, db)
    else
      ( .inscrito db.next_inscricao_id codigo,
        { db with
          inscricoes := db.inscricoes ++
            [novaInscricao db participante_id evento_id codigo]
          eventos := db.eventos.map (vagaMenos evento_id)
          next_inscricao_id := db.next_inscricao_id + 1 } )

/-- The WHERE clause of the cancellation UPDATE:
participante_id = ? AND evento_id = ? AND status = 'confirmada'. -/
def cancelaLinha (participante_id evento_id : Nat) (i : Inscricao) : Bool :=
  i.participante_id == participante_id && i.evento_id == evento_id
    && i.status == .confirmada

/-- The SET clause of the cancellation UPDATE applied to one row:
SET status = 'cancelada' on the rows matched by the WHERE clause. -/
def cancelaUpdate (participante_id evento_id : Nat) (i : Inscricao) : Inscricao :=
  if cancelaLinha participante_id evento_id i then { i with status := .cancelada }
  else i

/-- UPDATE eventos SET vagas_disponiveis = vagas_disponiveis + 1
WHERE id = ?, applied to one row. -/
def vagaMais (evento_id : Nat) (e : Evento) : Evento :=
  if e.id == evento_id then
    { e with vagas_disponiveis := e.vagas_disponiveis + 1 }
  else e

/-- cancelar_inscricao(participante_id, evento_id).
UPDATE inscricoes SET status = 'cancelada' WHERE ...; if rowcount > 0,
UPDATE eventos SET vagas_disponiveis = vagas_disponiveis + 1 and commit;
otherwise nothing was changed and the connection is closed uncommitted. -/
def cancelar_inscricao (db : DB) (participante_id evento_id : Nat) :
    Bool × DB :=
  if db.inscricoes.countP (cancelaLinha participante_id evento_id) > 0 then
    ( true,
      { db with
        inscricoes := db.inscricoes.map (cancelaUpdate participante_id evento_id)
        eventos := db.eventos.map (vagaMais evento_id) } )
  else
    (false, db)

/-- The WHERE clause of the check-in UPDATE:
codigo_confirmacao = ? AND status = 'confirmada'. -/
def checkinLinha (codigo : String) (i : Inscricao) : Bool :=
  i.codigo_confirmacao == codigo && i.status == .confirmada

/-- The SET clause of the check-in UPDATE applied to one row:
SET presente = 1, status = 'presente', data_checkin = CURRENT_TIMESTAMP. -/
def checkinUpdate (codigo : String) (agora : Nat) (i : Inscricao) : Inscricao :=
  if checkinLinha codigo i then
    { i with presente := true, status := .presente, data_checkin := some agora }
  else i

/-- realizar_checkin(codigo_confirmacao), with CURRENT_TIMESTAMP passed
in as agora.  UPDATE inscricoes SET presente = 1, status = 'presente',
data_checkin = CURRENT_TIMESTAMP WHERE codigo_confirmacao = ? AND
status = 'confirmada'; success exactly when rowcount > 0. -/
def realizar_checkin (db : DB) (codigo : String) (agora : Nat) : Bool × DB :=
  if db.inscricoes.countP (checkinLinha codigo) > 0 then
    ( true,
      { db with
        inscricoes := db.inscricoes.map (checkinUpdate codigo agora) } )
  else
    (false, db)

/-- MAX over a list of integers with COALESCE(..., 0): the maximum of a
non-empty list, and 0 for the empty list (SQL MAX of no rows is NULL). -/
def intMax0 : List Int → Int
  | [] => 0
  | p :: ps => ps.foldl max p

/-- SELECT COALESCE(MAX(posicao), 0) FROM lista_espera WHERE evento_id = ?
(the next position inserted is this value + 1). -/
def maxPosicao (l : List Espera) (evento_id : Nat) : Int :=
  intMax0 ((l.filter (fun w => w.evento_id == evento_id)).map (fun w => w.posicao))

/-- The row inserted by INSERT INTO lista_espera (participante_id,
evento_id, posicao) VALUES (?, ?, ?): posicao is the value
COALESCE(MAX(posicao), 0) + 1 computed just before the insert, notificado
takes its schema default 0, and id the next AUTOINCREMENT value. -/
def novaEspera (db : DB) (participante_id evento_id : Nat) : Espera :=
  { id := db.next_espera_id
    participante_id := participante_id
    evento_id := evento_id
    posicao := maxPosicao db.lista_espera evento_id + 1
    notificado := false }

/-- adicionar_lista_espera(participante_id, evento_id).
Computes posicao = COALESCE(MAX(posicao), 0) + 1 for the event, then
INSERT INTO lista_espera; IntegrityError (pair already waitlisted) leaves
the state unchanged. -/
def adicionar_lista_espera (db : DB) (participante_id evento_id : Nat) :
    Bool × DB :=
  if db.lista_espera.any (fun w =>
      w.participante_id == participante_id && w.evento_id == evento_id) then
    (false, db)
  else
    ( true,
      { db with
        lista_espera := db.lista_espera ++ [novaEspera db participante_id evento_id]
        next_espera_id := db.next_espera_id + 1 } )

/-- The operations a caller can issue after event creation: enroll,
cancel, join the waitlist, check in.  The random code and the timestamp
are recorded in the operation. -/
inductive Op where
  | inscrever (participante_id evento_id : Nat) (codigo : String)
  | cancelar (participante_id evento_id : Nat)
  | espera (participante_id evento_id : Nat)
  | checkin (codigo : String) (agora : Nat)
deriving DecidableEq

/-- Execute one operation, keeping only the next state. -/
def runOp (db : DB) : Op → DB
  | .inscrever p e c => (inscrever_participante db p e c).2
  | .cancelar p e => (cancelar_inscricao db p e).2
  | .espera p e => (adicionar_lista_espera db p e).2
  | .checkin c t => (realizar_checkin db c t).2

/-- Execute a sequence of operations. -/
def run (db : DB) : List Op → DB
  | [] => db
  | op :: ops => run (runOp db op) ops

/-- The state just after event creation: criar_evento inserts each event
with vagas_disponiveis = capacidade_maxima, and the inscricoes and
lista_espera tables are empty. -/
def initDB (evs : List Evento) : DB :=
  { eventos := evs
    inscricoes := []
    lista_espera := []
    next_inscricao_id := 1
    next_espera_id := 1 }

/-! ### The inductive invariant -/

/-- The inductive invariant of the states reachable from event creation:
stored vagas_disponiveis agrees with capacidade_maxima minus the number
of confirmada / presente enrollments and is non-negative, event ids are
distinct (they are primary keys), and the UNIQUE constraints of the
inscricoes table hold: one row per (participante_id, evento_id) pair and
globally unique codigo_confirmacao. -/
structure Invariante (db : DB) : Prop where
  vagas_eq : ∀ ev ∈ db.eventos,
    ev.vagas_disponiveis = ev.capacidade_maxima - (confirmedCount db ev.id : Int)
  vagas_nonneg : ∀ ev ∈ db.eventos, 0 ≤ ev.vagas_disponiveis
  ids_distintos : db.eventos.Pairwise (fun a b => a.id ≠ b.id)
  par_unico : db.inscricoes.Pairwise (fun a b =>
    ¬(a.participante_id = b.participante_id ∧ a.evento_id = b.evento_id))
  codigo_unico : db.inscricoes.Pairwise (fun a b =>
    a.codigo_confirmacao ≠ b.codigo_confirmacao)

/-- No two waitlist entries of the same event share a position. -/
def posicoesDistintas (db : DB) : Prop :=
  db.lista_espera.Pairwise (fun a b => a.evento_id = b.evento_id → a.posicao ≠ b.posicao)

/-- A confirmation code is retired in a state when some enrollment row
carries it but no confirmada row does.  Retired codes never come back:
the UNIQUE constraint blocks re-inserting the code, and no operation
moves a row back to confirmada. -/
def codigoMorto (db : DB) (c : String) : Prop :=
  (∃ i ∈ db.inscricoes, i.codigo_confirmacao = c) ∧
  (∀ i ∈ db.inscricoes, i.codigo_confirmacao = c → i.status ≠ .confirmada)

/-! ### Concrete states used in witnesses and counterexamples -/

/-- True exactly on the successful result of inscrever_participante. -/
def inscricaoCriada : InscreverResultado → Bool
  | .inscrito _ _ => true
  | _ => false

/-- Event 1 with capacity 2, one slot taken by the confirmed enrollment
of participant 1 (code AAAA), and participant 2 waiting at position 1. -/
def dbCancelPromo : DB :=
  ⟨[⟨1, 2, 1⟩], [⟨1, 1, 1, .confirmada, "AAAA", false, none⟩],
   [⟨1, 2, 1, 1, false⟩], 2, 2⟩

/-- Event 1 with capacity 2 and both slots open; the only enrollment of
participant 1 is cancelled (code AAAA). -/
def dbCancelada : DB :=
  ⟨[⟨1, 2, 2⟩], [⟨1, 1, 1, .cancelada, "AAAA", false, none⟩], [], 2, 1⟩

/-- Event 1 with capacity 2; participant 1 holds a confirmed enrollment
with code BBBB (no row carries code AAAA). -/
def dbSemCodigo : DB :=
  ⟨[⟨1, 2, 1⟩], [⟨1, 1, 1, .confirmada, "BBBB", false, none⟩], [], 2, 1⟩

/-- Event 1 with capacity 2; the enrollment with code AAAA is already
presente (checked in). -/
def dbJaPresente : DB :=
  ⟨[⟨1, 2, 1⟩], [⟨1, 1, 1, .presente, "AAAA", true, some 1⟩], [], 2, 1⟩

/-- Event 1 with capacity 1 and no open slot (vagas_disponiveis = 0). -/
def dbLotado : DB :=
  ⟨[⟨1, 1, 0⟩], [⟨1, 1, 1, .confirmada, "AAAA", false, none⟩], [], 2, 1⟩

/-! ### General list lemmas -/

/-- countP is determined pointwise. -/
theorem countP_congr_mem {α : Type} {p q : α → Bool} :
    ∀ {l : List α}, (∀ a ∈ l, p a = q a) → l.countP p = l.countP q := by
  intro l
  induction l with
  | nil => intro _; rfl
  | cons x xs ih =>
    intro h
    simp only [List.countP_cons]
    rw [ih (fun a ha => h a (List.mem_cons_of_mem x ha)),
      h x (List.mem_cons_self x xs)]

/-- Counting after a row update that falsifies A exactly on the rows
matched by q: the updated count plus the number of matched rows is the
original count. -/
theorem countP_add_split {α : Type} (A B q : α → Bool) (l : List α)
    (h : ∀ i ∈ l, (q i = true → B i = false ∧ A i = true) ∧
      (q i = false → B i = A i)) :
    l.countP B + l.countP q = l.countP A := by
  induction l with
  | nil => rfl
  | cons x xs ih =>
    have hx := h x (List.mem_cons_self x xs)
    have ih2 := ih (fun i hi => h i (List.mem_cons_of_mem x hi))
    simp only [List.countP_cons]
    cases hqx : q x with
    | true =>
      obtain ⟨hB, hA⟩ := hx.1 hqx
      rw [hB, hA]
      simp only [Bool.false_eq_true, if_false, if_true]
      omega
    | false =>
      rw [hx.2 hqx]
      simp only [Bool.false_eq_true, if_false]
      cases hax : A x <;> simp only [Bool.false_eq_true, if_false, if_true] <;> omega

/-- A predicate that never holds on two distinct related elements of a
pairwise list holds on at most one element. -/
theorem countP_le_one_of_pairwise {α : Type} {R : α → α → Prop} (q : α → Bool)
    {l : List α} (hl : l.Pairwise R)
    (hq : ∀ a b, q a = true → q b = true → R a b → False) :
    l.countP q ≤ 1 := by
  induction l with
  | nil => simp
  | cons x xs ih =>
    rcases List.pairwise_cons.mp hl with ⟨hx, hxs⟩
    simp only [List.countP_cons]
    cases hqx : q x with
    | false => simpa using ih hxs
    | true =>
      have hzero : xs.countP q = 0 :=
        List.countP_eq_zero.mpr (fun b hb hqb => hq x b hqx hqb (hx b hb))
      simp [hzero]

theorem le_foldl_max_init (l : List Int) (b : Int) : b ≤ l.foldl max b := by
  induction l generalizing b with
  | nil => simp
  | cons x xs ih => exact le_trans (le_max_left b x) (ih (max b x))

theorem le_foldl_max_mem (l : List Int) : ∀ (b x : Int), x ∈ l → x ≤ l.foldl max b := by
  induction l with
  | nil => intro b x hx; simp at hx
  | cons y ys ih =>
    intro b x hx
    rcases List.mem_cons.mp hx with h | h
    · subst h
      exact le_trans (le_max_right b x) (le_foldl_max_init ys (max b x))
    · exact ih (max b y) x h

theorem le_intMax0 {l : List Int} {x : Int} (hx : x ∈ l) : x ≤ intMax0 l := by
  cases l with
  | nil => simp at hx
  | cons p ps =>
    rcases List.mem_cons.mp hx with h | h
    · subst h
      exact le_foldl_max_init ps x
    · exact le_foldl_max_mem ps p x h

/-- Every waitlist entry of event e sits at or below the COALESCE(MAX, 0)
position of e. -/
theorem posicao_le_maxPosicao {l : List Espera} {e : Nat} {w : Espera}
    (hw : w ∈ l) (he : w.evento_id = e) : w.posicao ≤ maxPosicao l e := by
  apply le_intMax0
  exact List.mem_map_of_mem _ (List.mem_filter.mpr ⟨hw, by simp [he]⟩)

/-! ### Field-preservation facts about the row updates -/

theorem cancelaUpdate_participante (p e : Nat) (i : Inscricao) :
    (cancelaUpdate p e i).participante_id = i.participante_id := by
  unfold cancelaUpdate; split <;> rfl

theorem cancelaUpdate_evento (p e : Nat) (i : Inscricao) :
    (cancelaUpdate p e i).evento_id = i.evento_id := by
  unfold cancelaUpdate; split <;> rfl

theorem cancelaUpdate_codigo (p e : Nat) (i : Inscricao) :
    (cancelaUpdate p e i).codigo_confirmacao = i.codigo_confirmacao := by
  unfold cancelaUpdate; split <;> rfl

theorem checkinUpdate_participante (c : String) (t : Nat) (i : Inscricao) :
    (checkinUpdate c t i).participante_id = i.participante_id := by
  unfold checkinUpdate; split <;> rfl

theorem checkinUpdate_evento (c : String) (t : Nat) (i : Inscricao) :
    (checkinUpdate c t i).evento_id = i.evento_id := by
  unfold checkinUpdate; split <;> rfl

theorem checkinUpdate_codigo (c : String) (t : Nat) (i : Inscricao) :
    (checkinUpdate c t i).codigo_confirmacao = i.codigo_confirmacao := by
  unfold checkinUpdate; split <;> rfl

theorem vagaMais_id (e : Nat) (x : Evento) : (vagaMais e x).id = x.id := by
  unfold vagaMais; split <;> rfl

theorem vagaMenos_id (e : Nat) (x : Evento) : (vagaMenos e x).id = x.id := by
  unfold vagaMenos; split <;> rfl

/-! ### Counting and row-update facts used by the invariant proofs -/

theorem countP_append_single (l : List Inscricao) (i : Inscricao) (q : Inscricao → Bool) :
    (l ++ [i]).countP q = l.countP q + (if q i then 1 else 0) := by
  rw [List.countP_append]
  simp [List.countP_cons]

theorem contaVaga_nova (db : DB) (p e : Nat) (c : String) (e' : Nat) :
    contaVaga e' (novaInscricao db p e c) = (e == e') := by
  simp [contaVaga, novaInscricao]

theorem vagaMenos_eq_of {e : Nat} {x : Evento} (h : x.id = e) :
    vagaMenos e x = { x with vagas_disponiveis := x.vagas_disponiveis - 1 } := by
  simp [vagaMenos, h]

theorem vagaMenos_eq_of_ne {e : Nat} {x : Evento} (h : ¬x.id = e) :
    vagaMenos e x = x := by
  simp [vagaMenos, h]

theorem vagaMais_eq_of {e : Nat} {x : Evento} (h : x.id = e) :
    vagaMais e x = { x with vagas_disponiveis := x.vagas_disponiveis + 1 } := by
  simp [vagaMais, h]

theorem vagaMais_eq_of_ne {e : Nat} {x : Evento} (h : ¬x.id = e) :
    vagaMais e x = x := by
  simp [vagaMais, h]

/-- Two events of the table with the same id are the same row. -/
theorem evento_unico {evs : List Evento}
    (hids : evs.Pairwise (fun a b => a.id ≠ b.id))
    {ev ev0 : Evento} (h1 : ev ∈ evs) (h2 : ev0 ∈ evs) (heq : ev.id = ev0.id) :
    ev = ev0 := by
  by_contra hne
  have hsymm : Symmetric (fun a b : Evento => a.id ≠ b.id) := by
    intro a b hab hba
    exact hab hba.symm
  exact List.Pairwise.forall hsymm hids h1 h2 hne heq

theorem inv_inscrever (db : DB) (p e : Nat) (c : String) (h : Invariante db) :
    Invariante (inscrever_participante db p e c).2 := by
  unfold inscrever_participante
  cases hfind : db.eventos.find? (fun ev => ev.id == e) with
  | none => exact h
  | some ev =>
    simp only
    by_cases hv : ev.vagas_disponiveis ≤ 0
    · rw [if_pos hv]; exact h
    rw [if_neg hv]
    by_cases hdup : (db.inscricoes.any (fun i =>
          i.participante_id == p && i.evento_id == e)
        || db.inscricoes.any (fun i => i.codigo_confirmacao == c)) = true
    · rw [if_pos hdup]; exact h
    rw [if_neg hdup]
    simp only [Bool.or_eq_true, not_or] at hdup
    obtain ⟨hdup1, hdup2⟩ := hdup
    rw [Bool.not_eq_true, List.any_eq_false] at hdup1 hdup2
    have hev_mem : ev ∈ db.eventos := List.mem_of_find?_eq_some hfind
    have hev_id : ev.id = e := by
      have := List.find?_some hfind
      simpa using this
    constructor
    · -- vagas_eq
      intro ev' hev'
      rcases List.mem_map.mp hev' with ⟨ev0, hev0, rfl⟩
      have h0 := h.vagas_eq ev0 hev0
      simp only [confirmedCount] at h0 ⊢
      by_cases hid : ev0.id = e
      · rw [vagaMenos_eq_of hid]
        dsimp only
        rw [countP_append_single, contaVaga_nova]
        rw [hid] at h0 ⊢
        simp only [beq_self_eq_true, if_true]
        push_cast
        omega
      · rw [vagaMenos_eq_of_ne hid]
        rw [countP_append_single, contaVaga_nova]
        have hne : (e == ev0.id) = false := by
          simp only [beq_eq_false_iff_ne, ne_eq]
          exact fun hh => hid hh.symm
        rw [hne]
        simpa using h0
    · -- vagas_nonneg
      intro ev' hev'
      rcases List.mem_map.mp hev' with ⟨ev0, hev0, rfl⟩
      by_cases hid : ev0.id = e
      · have hev0ev : ev = ev0 :=
          evento_unico h.ids_distintos hev_mem hev0 (hev_id.trans hid.symm)
        rw [vagaMenos_eq_of hid]
        dsimp only
        rw [← hev0ev]
        omega
      · rw [vagaMenos_eq_of_ne hid]
        exact h.vagas_nonneg ev0 hev0
    · -- ids_distintos
      rw [List.pairwise_map]
      exact h.ids_distintos.imp (fun {a b} hab => by
        rw [vagaMenos_id, vagaMenos_id]; exact hab)
    · -- par_unico
      rw [List.pairwise_append]
      refine ⟨h.par_unico, List.pairwise_singleton _ _, ?_⟩
      intro a ha b hb
      simp only [List.mem_singleton] at hb
      subst hb
      intro hab
      have hna := hdup1 a ha
      simp only [novaInscricao] at hab
      rw [hab.1, hab.2] at hna
      simp at hna
    · -- codigo_unico
      rw [List.pairwise_append]
      refine ⟨h.codigo_unico, List.pairwise_singleton _ _, ?_⟩
      intro a ha b hb
      simp only [List.mem_singleton] at hb
      subst hb
      intro hab
      have hna := hdup2 a ha
      simp only [novaInscricao] at hab
      rw [hab] at hna
      simp at hna

/-- The rows matched by the cancellation UPDATE occupy a slot of the
event being cancelled. -/
theorem cancelaLinha_conta {p e : Nat} {i : Inscricao}
    (h : cancelaLinha p e i = true) : contaVaga e i = true := by
  simp only [cancelaLinha, Bool.and_eq_true, beq_iff_eq] at h
  simp [contaVaga, h.1.2, h.2]

/-- Counting slot-occupying rows after the cancellation UPDATE: the
matched rows stop counting, nothing else changes. -/
theorem count_cancela_split (db : DB) (p e : Nat) :
    (db.inscricoes.map (cancelaUpdate p e)).countP (contaVaga e)
      + db.inscricoes.countP (cancelaLinha p e)
      = db.inscricoes.countP (contaVaga e) := by
  rw [List.countP_map]
  apply countP_add_split
  intro i _
  constructor
  · intro hq
    constructor
    · simp only [Function.comp, cancelaUpdate, hq, if_true, contaVaga]
      simp
    · exact cancelaLinha_conta hq
  · intro hq
    simp only [Function.comp, cancelaUpdate, hq]
    simp

/-- The cancellation UPDATE does not change the slot count of any other
event. -/
theorem count_cancela_outro (db : DB) (p e e' : Nat) (hne : e' ≠ e) :
    (db.inscricoes.map (cancelaUpdate p e)).countP (contaVaga e')
      = db.inscricoes.countP (contaVaga e') := by
  rw [List.countP_map]
  apply countP_congr_mem
  intro i _
  simp only [Function.comp]
  cases hq : cancelaLinha p e i with
  | true =>
    have he : i.evento_id = e := by
      simp only [cancelaLinha, Bool.and_eq_true, beq_iff_eq] at hq
      exact hq.1.2
    have hee : (e == e') = false := by
      simp only [beq_eq_false_iff_ne, ne_eq]
      exact fun hh => hne hh.symm
    simp only [cancelaUpdate, hq, if_true, contaVaga, he, hee]
    simp
  | false =>
    simp only [cancelaUpdate, hq]
    simp

/-- At most one row is matched by the cancellation UPDATE: the UNIQUE
constraint on (participante_id, evento_id). -/
theorem cancela_rowcount_le_one (db : DB) (p e : Nat) (h : Invariante db) :
    db.inscricoes.countP (cancelaLinha p e) ≤ 1 := by
  apply countP_le_one_of_pairwise _ h.par_unico
  intro a b ha hb hR
  apply hR
  simp only [cancelaLinha, Bool.and_eq_true, beq_iff_eq] at ha hb
  exact ⟨ha.1.1.trans hb.1.1.symm, ha.1.2.trans hb.1.2.symm⟩

theorem inv_cancelar (db : DB) (p e : Nat) (h : Invariante db) :
    Invariante (cancelar_inscricao db p e).2 := by
  unfold cancelar_inscricao
  by_cases hn : db.inscricoes.countP (cancelaLinha p e) > 0
  case neg => rw [if_neg hn]; exact h
  rw [if_pos hn]
  have hle := cancela_rowcount_le_one db p e h
  constructor
  · -- vagas_eq
    intro ev' hev'
    rcases List.mem_map.mp hev' with ⟨ev0, hev0, rfl⟩
    have h0 := h.vagas_eq ev0 hev0
    simp only [confirmedCount] at h0 ⊢
    by_cases hid : ev0.id = e
    · rw [vagaMais_eq_of hid]
      dsimp only
      rw [hid] at h0 ⊢
      have hsplit := count_cancela_split db p e
      omega
    · rw [vagaMais_eq_of_ne hid]
      rw [count_cancela_outro db p e ev0.id hid]
      exact h0
  · -- vagas_nonneg
    intro ev' hev'
    rcases List.mem_map.mp hev' with ⟨ev0, hev0, rfl⟩
    have h0 := h.vagas_nonneg ev0 hev0
    by_cases hid : ev0.id = e
    · rw [vagaMais_eq_of hid]
      dsimp only
      omega
    · rw [vagaMais_eq_of_ne hid]
      exact h0
  · -- ids_distintos
    rw [List.pairwise_map]
    exact h.ids_distintos.imp (fun {a b} hab => by
      rw [vagaMais_id, vagaMais_id]; exact hab)
  · -- par_unico
    rw [List.pairwise_map]
    exact h.par_unico.imp (fun {a b} hab => by
      rw [cancelaUpdate_participante, cancelaUpdate_participante,
        cancelaUpdate_evento, cancelaUpdate_evento]
      exact hab)
  · -- codigo_unico
    rw [List.pairwise_map]
    exact h.codigo_unico.imp (fun {a b} hab => by
      rw [cancelaUpdate_codigo, cancelaUpdate_codigo]
      exact hab)

/-- The check-in UPDATE moves rows from confirmada to presente, so the
slot count of every event is unchanged. -/
theorem count_checkin (db : DB) (c : String) (t : Nat) (e' : Nat) :
    (db.inscricoes.map (checkinUpdate c t)).countP (contaVaga e')
      = db.inscricoes.countP (contaVaga e') := by
  rw [List.countP_map]
  apply countP_congr_mem
  intro i _
  simp only [Function.comp]
  cases hq : checkinLinha c i with
  | true =>
    have hst : i.status = .confirmada := by
      simp only [checkinLinha, Bool.and_eq_true, beq_iff_eq] at hq
      exact hq.2
    simp only [checkinUpdate, hq, if_true]
    simp [contaVaga, hst]
  | false =>
    simp only [checkinUpdate, hq]
    simp

theorem inv_checkin (db : DB) (c : String) (t : Nat) (h : Invariante db) :
    Invariante (realizar_checkin db c t).2 := by
  unfold realizar_checkin
  by_cases hn : db.inscricoes.countP (checkinLinha c) > 0
  case neg => rw [if_neg hn]; exact h
  rw [if_pos hn]
  constructor
  · intro ev' hev'
    have h0 := h.vagas_eq ev' hev'
    simp only [confirmedCount] at h0 ⊢
    rw [count_checkin]
    exact h0
  · exact h.vagas_nonneg
  · exact h.ids_distintos
  · rw [List.pairwise_map]
    exact h.par_unico.imp (fun {a b} hab => by
      rw [checkinUpdate_participante, checkinUpdate_participante,
        checkinUpdate_evento, checkinUpdate_evento]
      exact hab)
  · rw [List.pairwise_map]
    exact h.codigo_unico.imp (fun {a b} hab => by
      rw [checkinUpdate_codigo, checkinUpdate_codigo]
      exact hab)

theorem inv_espera (db : DB) (p e : Nat) (h : Invariante db) :
    Invariante (adicionar_lista_espera db p e).2 := by
  unfold adicionar_lista_espera
  by_cases hdup : db.lista_espera.any (fun w =>
      w.participante_id == p && w.evento_id == e) = true
  · rw [if_pos hdup]; exact h
  · rw [if_neg hdup]
    exact ⟨h.vagas_eq, h.vagas_nonneg, h.ids_distintos, h.par_unico, h.codigo_unico⟩

theorem inv_runOp (db : DB) (op : Op) (h : Invariante db) :
    Invariante (runOp db op) := by
  cases op with
  | inscrever p e c => exact inv_inscrever db p e c h
  | cancelar p e => exact inv_cancelar db p e h
  | espera p e => exact inv_espera db p e h
  | checkin c t => exact inv_checkin db c t h

theorem inv_run (ops : List Op) : ∀ db : DB, Invariante db → Invariante (run db ops) := by
  induction ops with
  | nil => intro db h; exact h
  | cons op ops ih =>
    intro db h
    exact ih (runOp db op) (inv_runOp db op h)

theorem inv_initDB (evs : List Evento)
    (h1 : ∀ ev ∈ evs, ev.vagas_disponiveis = ev.capacidade_maxima)
    (h2 : ∀ ev ∈ evs, 0 ≤ ev.capacidade_maxima)
    (h3 : evs.Pairwise (fun a b => a.id ≠ b.id)) :
    Invariante (initDB evs) := by
  constructor
  · intro ev hev
    simp [confirmedCount, initDB, h1 ev hev]
  · intro ev hev
    rw [h1 ev hev]
    exact h2 ev hev
  · exact h3
  · simp [initDB]
  · simp [initDB]

/-! ### Waitlist positions -/

theorem inscrever_lista (db : DB) (p e : Nat) (c : String) :
    (inscrever_participante db p e c).2.lista_espera = db.lista_espera := by
  unfold inscrever_participante
  cases hfind : db.eventos.find? (fun ev => ev.id == e) with
  | none => rfl
  | some ev =>
    simp only
    by_cases hv : ev.vagas_disponiveis ≤ 0
    · rw [if_pos hv]
    · rw [if_neg hv]
      by_cases hdup : (db.inscricoes.any (fun i =>
            i.participante_id == p && i.evento_id == e)
          || db.inscricoes.any (fun i => i.codigo_confirmacao == c)) = true
      · rw [if_pos hdup]
      · rw [if_neg hdup]

theorem cancelar_lista (db : DB) (p e : Nat) :
    (cancelar_inscricao db p e).2.lista_espera = db.lista_espera := by
  unfold cancelar_inscricao
  by_cases hn : db.inscricoes.countP (cancelaLinha p e) > 0
  · rw [if_pos hn]
  · rw [if_neg hn]

theorem checkin_lista (db : DB) (c : String) (t : Nat) :
    (realizar_checkin db c t).2.lista_espera = db.lista_espera := by
  unfold realizar_checkin
  by_cases hn : db.inscricoes.countP (checkinLinha c) > 0
  · rw [if_pos hn]
  · rw [if_neg hn]

theorem pos_espera (db : DB) (p e : Nat) (h : posicoesDistintas db) :
    posicoesDistintas (adicionar_lista_espera db p e).2 := by
  unfold adicionar_lista_espera
  by_cases hdup : db.lista_espera.any (fun w =>
      w.participante_id == p && w.evento_id == e) = true
  · rw [if_pos hdup]; exact h
  · rw [if_neg hdup]
    unfold posicoesDistintas at h ⊢
    simp only
    rw [List.pairwise_append]
    refine ⟨h, List.pairwise_singleton _ _, ?_⟩
    intro a ha b hb
    simp only [List.mem_singleton] at hb
    subst hb
    intro hevent hpos
    have hae : a.evento_id = e := by simpa [novaEspera] using hevent
    have hle := posicao_le_maxPosicao ha hae
    simp only [novaEspera] at hpos
    omega

theorem pos_runOp (db : DB) (op : Op) (h : posicoesDistintas db) :
    posicoesDistintas (runOp db op) := by
  cases op with
  | inscrever p e c =>
    unfold posicoesDistintas
    rw [runOp, inscrever_lista]
    exact h
  | cancelar p e =>
    unfold posicoesDistintas
    rw [runOp, cancelar_lista]
    exact h
  | checkin c t =>
    unfold posicoesDistintas
    rw [runOp, checkin_lista]
    exact h
  | espera p e => exact pos_espera db p e h

theorem pos_run (ops : List Op) :
    ∀ db : DB, posicoesDistintas db → posicoesDistintas (run db ops) := by
  induction ops with
  | nil => intro db h; exact h
  | cons op ops ih =>
    intro db h
    exact ih (runOp db op) (pos_runOp db op h)

/-! ### Retired confirmation codes -/

theorem morto_inscrever (db : DB) (p e : Nat) (c2 c : String)
    (h : codigoMorto db c) : codigoMorto (inscrever_participante db p e c2).2 c := by
  unfold inscrever_participante
  cases hfind : db.eventos.find? (fun ev => ev.id == e) with
  | none => exact h
  | some ev =>
    simp only
    by_cases hv : ev.vagas_disponiveis ≤ 0
    · rw [if_pos hv]; exact h
    rw [if_neg hv]
    by_cases hdup : (db.inscricoes.any (fun i =>
          i.participante_id == p && i.evento_id == e)
        || db.inscricoes.any (fun i => i.codigo_confirmacao == c2)) = true
    · rw [if_pos hdup]; exact h
    rw [if_neg hdup]
    simp only [Bool.or_eq_true, not_or] at hdup
    obtain ⟨hdup1, hdup2⟩ := hdup
    rw [Bool.not_eq_true, List.any_eq_false] at hdup2
    obtain ⟨⟨i0, hi0, hc0⟩, hall⟩ := h
    constructor
    · exact ⟨i0, List.mem_append_left _ hi0, hc0⟩
    · intro i hi hic
      rcases List.mem_append.mp hi with hi | hi
      · exact hall i hi hic
      · simp only [List.mem_singleton] at hi
        subst hi
        simp only [novaInscricao] at hic
        exfalso
        have hno := hdup2 i0 hi0
        rw [hc0, hic] at hno
        simp at hno

theorem morto_cancelar (db : DB) (p e : Nat) (c : String)
    (h : codigoMorto db c) : codigoMorto (cancelar_inscricao db p e).2 c := by
  unfold cancelar_inscricao
  by_cases hn : db.inscricoes.countP (cancelaLinha p e) > 0
  case neg => rw [if_neg hn]; exact h
  rw [if_pos hn]
  obtain ⟨⟨i0, hi0, hc0⟩, hall⟩ := h
  constructor
  · exact ⟨cancelaUpdate p e i0, List.mem_map_of_mem _ hi0,
      by rw [cancelaUpdate_codigo]; exact hc0⟩
  · intro j hj hjc
    rcases List.mem_map.mp hj with ⟨i, hi, rfl⟩
    rw [cancelaUpdate_codigo] at hjc
    unfold cancelaUpdate
    split
    · simp
    · exact hall i hi hjc

theorem morto_checkin (db : DB) (c2 : String) (t : Nat) (c : String)
    (h : codigoMorto db c) : codigoMorto (realizar_checkin db c2 t).2 c := by
  unfold realizar_checkin
  by_cases hn : db.inscricoes.countP (checkinLinha c2) > 0
  case neg => rw [if_neg hn]; exact h
  rw [if_pos hn]
  obtain ⟨⟨i0, hi0, hc0⟩, hall⟩ := h
  constructor
  · exact ⟨checkinUpdate c2 t i0, List.mem_map_of_mem _ hi0,
      by rw [checkinUpdate_codigo]; exact hc0⟩
  · intro j hj hjc
    rcases List.mem_map.mp hj with ⟨i, hi, rfl⟩
    rw [checkinUpdate_codigo] at hjc
    unfold checkinUpdate
    split
    · simp
    · exact hall i hi hjc

theorem morto_espera (db : DB) (p e : Nat) (c : String)
    (h : codigoMorto db c) : codigoMorto (adicionar_lista_espera db p e).2 c := by
  unfold adicionar_lista_espera
  by_cases hdup : db.lista_espera.any (fun w =>
      w.participante_id == p && w.evento_id == e) = true
  · rw [if_pos hdup]; exact h
  · rw [if_neg hdup]; exact h

theorem morto_runOp (db : DB) (op : Op) (c : String) (h : codigoMorto db c) :
    codigoMorto (runOp db op) c := by
  cases op with
  | inscrever p e c2 => exact morto_inscrever db p e c2 c h
  | cancelar p e => exact morto_cancelar db p e c h
  | espera p e => exact morto_espera db p e c h
  | checkin c2 t => exact morto_checkin db c2 t c h

theorem morto_run (ops : List Op) :
    ∀ db : DB, ∀ c : String, codigoMorto db c → codigoMorto (run db ops) c := by
  induction ops with
  | nil => intro db c h; exact h
  | cons op ops ih =>
    intro db c h
    exact ih (runOp db op) c (morto_runOp db op c h)

/-- Check-in always fails on a retired code. -/
theorem morto_checkin_false (db : DB) (c : String) (t : Nat)
    (h : codigoMorto db c) : (realizar_checkin db c t).1 = false := by
  unfold realizar_checkin
  have hz : db.inscricoes.countP (checkinLinha c) = 0 := by
    apply List.countP_eq_zero.mpr
    intro i hi
    simp only [checkinLinha, Bool.and_eq_true, beq_iff_eq, not_and]
    intro hic
    have hst := h.2 i hi hic
    simp [hst]
  rw [hz]
  simp

/-- A successful check-in retires the code. -/
theorem checkin_true_morto (db : DB) (c : String) (t : Nat) (db' : DB)
    (h : realizar_checkin db c t = (true, db')) : codigoMorto db' c := by
  unfold realizar_checkin at h
  by_cases hn : db.inscricoes.countP (checkinLinha c) > 0
  case neg =>
    rw [if_neg hn] at h
    exact absurd (congrArg Prod.fst h) (by simp)
  rw [if_pos hn] at h
  have hdb : db' = { db with inscricoes := db.inscricoes.map (checkinUpdate c t) } :=
    (congrArg Prod.snd h).symm
  subst hdb
  obtain ⟨i0, hi0, hq0⟩ := List.countP_pos_iff.mp hn
  constructor
  · refine ⟨checkinUpdate c t i0, List.mem_map_of_mem _ hi0, ?_⟩
    rw [checkinUpdate_codigo]
    simp only [checkinLinha, Bool.and_eq_true, beq_iff_eq] at hq0
    exact hq0.1
  · intro j hj hjc
    rcases List.mem_map.mp hj with ⟨i, hi, rfl⟩
    rw [checkinUpdate_codigo] at hjc
    unfold checkinUpdate
    split
    · simp
    · next hq =>
        intro hst
        exact hq (by simp [checkinLinha, hjc, hst])

/-! ### Claim theorems -/

/-- C4: enrolling into an existing event with no remaining slots
(vagas_disponiveis <= 0) signals the waitlist route ('lista_espera'),
creates no enrollment record and leaves the whole state unchanged. -/
theorem c4_lotado_sem_efeito (db : DB) (p e : Nat) (c : String) (ev : Evento)
    (hfind : db.eventos.find? (fun x => x.id == e) = some ev)
    (hv : ev.vagas_disponiveis ≤ 0) :
    inscrever_participante db p e c = (.sem_vagas, db) := by
  unfold inscrever_participante
  rw [hfind]
  simp only
  rw [if_pos hv]

/-- Witness for C4 at a concrete full event. -/
theorem c4_witness :
    inscrever_participante dbLotado 2 1 "BBBB" = (.sem_vagas, dbLotado) :=
  c4_lotado_sem_efeito dbLotado 2 1 "BBBB" ⟨1, 1, 0⟩ (by decide) (by decide)

/-- C7: when no confirmed enrollment exists for the pair (none at all,
already cancelled, or already attended), cancellation fails (returns
False) and the state is completely unchanged. -/
theorem c7_cancelamento_inexistente (db : DB) (p e : Nat)
    (h : db.inscricoes.countP (cancelaLinha p e) = 0) :
    cancelar_inscricao db p e = (false, db) := by
  unfold cancelar_inscricao
  rw [h]
  simp

/-- Witness for C7: cancelling an enrollment that is already presente. -/
theorem c7_witness :
    cancelar_inscricao dbJaPresente 1 1 = (false, dbJaPresente) :=
  c7_cancelamento_inexistente dbJaPresente 1 1 (by decide)

/-- Case analysis of inscrever_participante: either it fails and returns
the state unchanged, or it succeeds and returns the inserted state. -/
theorem inscrever_spec (db : DB) (p e : Nat) (c : String) :
    (∃ r, inscrever_participante db p e c = (r, db) ∧ inscricaoCriada r = false) ∨
    inscrever_participante db p e c =
      (.inscrito db.next_inscricao_id c,
        { db with
          inscricoes := db.inscricoes ++ [novaInscricao db p e c]
          eventos := db.eventos.map (vagaMenos e)
          next_inscricao_id := db.next_inscricao_id + 1 }) := by
  unfold inscrever_participante
  cases hfind : db.eventos.find? (fun x => x.id == e) with
  | none => exact Or.inl ⟨_, rfl, rfl⟩
  | some ev =>
    simp only
    by_cases hv : ev.vagas_disponiveis ≤ 0
    · rw [if_pos hv]
      exact Or.inl ⟨_, rfl, rfl⟩
    rw [if_neg hv]
    by_cases hdup : (db.inscricoes.any (fun i =>
          i.participante_id == p && i.evento_id == e)
        || db.inscricoes.any (fun i => i.codigo_confirmacao == c)) = true
    · rw [if_pos hdup]
      exact Or.inl ⟨_, rfl, rfl⟩
    · rw [if_neg hdup]
      exact Or.inr rfl

/-- C10: whenever inscrever_participante does not return a new
enrollment (event not found, no slots, duplicate pair or duplicate
code), the state is unchanged: no row is inserted and
vagas_disponiveis keeps its value. -/
theorem c10_inscricao_atomica (db : DB) (p e : Nat) (c : String)
    (h : inscricaoCriada (inscrever_participante db p e c).1 = false) :
    (inscrever_participante db p e c).2 = db := by
  rcases inscrever_spec db p e c with ⟨r, heq, _⟩ | heq
  · rw [heq]
  · rw [heq] at h
    simp [inscricaoCriada] at h

/-- Witness for C10: enrolling into a non-existent event. -/
theorem c10_witness :
    inscricaoCriada (inscrever_participante (initDB []) 1 1 "AAAA").1 = false
    ∧ (inscrever_participante (initDB []) 1 1 "AAAA").2 = initDB [] :=
  ⟨by decide, c10_inscricao_atomica (initDB []) 1 1 "AAAA" (by decide)⟩

/-- C3 as the code behaves (amended): with the event found, a free slot
and a fresh code, enrollment returns the duplicate error exactly when
SOME enrollment row for the pair exists, of any status; in particular a
cancelled enrollment also blocks re-enrollment, because the UNIQUE
constraint on (participante_id, evento_id) ignores status. -/
theorem c3_conflito_com_cancelada (db : DB) (p e : Nat) (c : String) (ev : Evento)
    (hfind : db.eventos.find? (fun x => x.id == e) = some ev)
    (hv : 0 < ev.vagas_disponiveis)
    (hc : db.inscricoes.any (fun i => i.codigo_confirmacao == c) = false) :
    (inscrever_participante db p e c).1 = .ja_inscrito ↔
      db.inscricoes.any (fun i =>
        i.participante_id == p && i.evento_id == e) = true := by
  unfold inscrever_participante
  rw [hfind]
  simp only
  rw [if_neg (not_le.mpr hv), hc, Bool.or_false]
  cases hp : db.inscricoes.any (fun i =>
      i.participante_id == p && i.evento_id == e) with
  | true => simp [hp]
  | false => simp [hp]

/-- C3 counterexample: the pair (participant 1, event 1) has only a
cancelled enrollment, the event has free slots and the code is fresh,
yet enrollment is rejected as a duplicate — refuting the claim that a
pair whose only enrollment is cancelled is not blocked. -/
theorem c3_contraexemplo :
    dbCancelada.inscricoes.all (fun i => i.status == .cancelada) = true
    ∧ dbCancelada.eventos.find? (fun x => x.id == 1) = some ⟨1, 2, 2⟩
    ∧ dbCancelada.inscricoes.all (fun i => !(i.codigo_confirmacao == "BBBB")) = true
    ∧ (inscrever_participante dbCancelada 1 1 "BBBB").1 = .ja_inscrito := by
  decide

/-- Witness for the amended C3 at the concrete cancelled-enrollment
state. -/
theorem c3_witness :
    (inscrever_participante dbCancelada 1 1 "BBBB").1 = .ja_inscrito ↔
      dbCancelada.inscricoes.any (fun i =>
        i.participante_id == 1 && i.evento_id == 1) = true :=
  c3_conflito_com_cancelada dbCancelada 1 1 "BBBB" ⟨1, 2, 2⟩
    (by decide) (by decide) (by decide)

/-- C6 as the code behaves (amended): check-in fails whenever no
confirmada row carries the code — whether the code matches no row, a row
already presente, or a cancelled row — and the three causes produce one
and the same outcome (False, state unchanged), not three distinguishable
errors. -/
theorem c6_falha_unica_checkin (db : DB) (c : String) (t : Nat)
    (h : db.inscricoes.countP (checkinLinha c) = 0) :
    realizar_checkin db c t = (false, db) := by
  unfold realizar_checkin
  rw [h]
  simp

/-- C6 counterexample: three states realising the three failure causes
(no matching row, row already presente, row cancelled) all yield the
identical observable outcome False — refuting the claim of three
distinguishable error outcomes. -/
theorem c6_contraexemplo :
    dbSemCodigo.inscricoes.all (fun i => !(i.codigo_confirmacao == "AAAA")) = true
    ∧ dbJaPresente.inscricoes.all (fun i => i.status == .presente) = true
    ∧ dbCancelada.inscricoes.all (fun i => i.status == .cancelada) = true
    ∧ (realizar_checkin dbSemCodigo "AAAA" 5).1 = false
    ∧ (realizar_checkin dbJaPresente "AAAA" 5).1 = false
    ∧ (realizar_checkin dbCancelada "AAAA" 5).1 = false
    ∧ (realizar_checkin dbSemCodigo "AAAA" 5).1
        = (realizar_checkin dbJaPresente "AAAA" 5).1
    ∧ (realizar_checkin dbJaPresente "AAAA" 5).1
        = (realizar_checkin dbCancelada "AAAA" 5).1 := by
  decide

/-- Witness for the amended C6: check-in on an already-presente row. -/
theorem c6_witness :
    realizar_checkin dbJaPresente "AAAA" 7 = (false, dbJaPresente) :=
  c6_falha_unica_checkin dbJaPresente "AAAA" 7 (by decide)

/-- C2 as the code behaves (amended): a successful cancellation releases
the slot but performs NO promotion: the waitlist is untouched (no entry
is removed) and no new enrollment row is created, even when the waitlist
is non-empty.  cancelar_inscricao never reads or writes lista_espera. -/
theorem c2_cancelamento_sem_promocao (db : DB) (p e : Nat)
    (h : (cancelar_inscricao db p e).1 = true) :
    (cancelar_inscricao db p e).2.lista_espera = db.lista_espera
    ∧ (cancelar_inscricao db p e).2.inscricoes.length = db.inscricoes.length := by
  refine ⟨cancelar_lista db p e, ?_⟩
  unfold cancelar_inscricao
  by_cases hn : db.inscricoes.countP (cancelaLinha p e) > 0
  · rw [if_pos hn]
    simp
  · rw [if_neg hn]

/-- C2 counterexample: a concrete state with a confirmed enrollment and
a non-empty waitlist; cancellation succeeds, yet the waitlist entry is
not removed and no new confirmed enrollment is created — refuting the
claimed promotion. -/
theorem c2_contraexemplo :
    (cancelar_inscricao dbCancelPromo 1 1).1 = true
    ∧ dbCancelPromo.lista_espera.length = 1
    ∧ (cancelar_inscricao dbCancelPromo 1 1).2.lista_espera
        = dbCancelPromo.lista_espera
    ∧ (cancelar_inscricao dbCancelPromo 1 1).2.inscricoes.length
        = dbCancelPromo.inscricoes.length
    ∧ (cancelar_inscricao dbCancelPromo 1 1).2.inscricoes.countP
        (fun i => i.status == .confirmada) = 0 := by
  decide

/-- Witness for the amended C2 at the concrete waitlisted state. -/
theorem c2_witness :
    (cancelar_inscricao dbCancelPromo 1 1).2.lista_espera
        = dbCancelPromo.lista_espera
    ∧ (cancelar_inscricao dbCancelPromo 1 1).2.inscricoes.length
        = dbCancelPromo.inscricoes.length :=
  c2_cancelamento_sem_promocao dbCancelPromo 1 1 (by decide)

/-- C8: cancelling an existing confirmed enrollment succeeds, marks
exactly that enrollment cancelled, raises the event's
vagas_disponiveis by exactly 1, and leaves every other enrollment,
every other event and the waitlist unchanged. -/
theorem c8_cancelamento_frame (db : DB) (p e : Nat) (i : Inscricao)
    (hpar : db.inscricoes.Pairwise (fun a b =>
      ¬(a.participante_id = b.participante_id ∧ a.evento_id = b.evento_id)))
    (hi : i ∈ db.inscricoes) (hp : i.participante_id = p)
    (he : i.evento_id = e) (hs : i.status = .confirmada) :
    (cancelar_inscricao db p e).1 = true
    ∧ { i with status := .cancelada } ∈ (cancelar_inscricao db p e).2.inscricoes
    ∧ (∀ j ∈ db.inscricoes, j ≠ i → j ∈ (cancelar_inscricao db p e).2.inscricoes)
    ∧ (cancelar_inscricao db p e).2.inscricoes.length = db.inscricoes.length
    ∧ (∀ ev ∈ db.eventos, ev.id = e →
        { ev with vagas_disponiveis := ev.vagas_disponiveis + 1 }
          ∈ (cancelar_inscricao db p e).2.eventos)
    ∧ (∀ ev ∈ db.eventos, ev.id ≠ e → ev ∈ (cancelar_inscricao db p e).2.eventos)
    ∧ (cancelar_inscricao db p e).2.lista_espera = db.lista_espera := by
  have hcl : cancelaLinha p e i = true := by
    simp [cancelaLinha, hp, he, hs]
  have hn : db.inscricoes.countP (cancelaLinha p e) > 0 :=
    List.countP_pos_iff.mpr ⟨i, hi, hcl⟩
  unfold cancelar_inscricao
  rw [if_pos hn]
  refine ⟨rfl, ?_, ?_, by simp, ?_, ?_, rfl⟩
  · have hupd : cancelaUpdate p e i = { i with status := .cancelada } := by
      simp [cancelaUpdate, hcl]
    rw [← hupd]
    exact List.mem_map_of_mem _ hi
  · intro j hj hne
    have hjp : ¬(j.participante_id = p ∧ j.evento_id = e) := by
      intro hpe
      have hsymm : Symmetric (fun a b : Inscricao =>
          ¬(a.participante_id = b.participante_id ∧ a.evento_id = b.evento_id)) := by
        intro a b hab hba
        exact hab ⟨hba.1.symm, hba.2.symm⟩
      exact List.Pairwise.forall hsymm hpar hj hi hne
        ⟨hpe.1.trans hp.symm, hpe.2.trans he.symm⟩
    have hclj : cancelaLinha p e j = false := by
      rw [Bool.eq_false_iff]
      intro hcl2
      simp only [cancelaLinha, Bool.and_eq_true, beq_iff_eq] at hcl2
      exact hjp ⟨hcl2.1.1, hcl2.1.2⟩
    have hupd : cancelaUpdate p e j = j := by
      simp [cancelaUpdate, hclj]
    rw [← hupd]
    exact List.mem_map_of_mem _ hj
  · intro ev hev hide
    rw [← vagaMais_eq_of hide]
    exact List.mem_map_of_mem _ hev
  · intro ev hev hide
    rw [← vagaMais_eq_of_ne hide]
    exact List.mem_map_of_mem _ hev

/-- Witness for C8 at the concrete waitlisted state: the cancellation
succeeds, the cancelled row appears, and event 1 regains the slot. -/
theorem c8_witness :
    (cancelar_inscricao dbCancelPromo 1 1).1 = true
    ∧ (⟨1, 1, 1, .cancelada, "AAAA", false, none⟩ : Inscricao)
        ∈ (cancelar_inscricao dbCancelPromo 1 1).2.inscricoes
    ∧ (⟨1, 2, 2⟩ : Evento) ∈ (cancelar_inscricao dbCancelPromo 1 1).2.eventos
    ∧ (cancelar_inscricao dbCancelPromo 1 1).2.lista_espera
        = dbCancelPromo.lista_espera := by
  have h := c8_cancelamento_frame dbCancelPromo 1 1
    ⟨1, 1, 1, .confirmada, "AAAA", false, none⟩
    (by decide) (by decide) rfl rfl rfl
  exact ⟨h.1, h.2.1, h.2.2.2.2.1 ⟨1, 2, 1⟩ (by decide) rfl, h.2.2.2.2.2.2⟩

/-- C1: in every state reachable by enroll / cancel / join-waitlist /
check-in operations from event creation (each event starts with
vagas_disponiveis = capacidade_maxima >= 0 and distinct ids), every
event satisfies 0 <= confirmed_count <= capacidade_maxima, where
confirmed_count is the number of its enrollments in state confirmada or
presente, and vagas_disponiveis = capacidade_maxima - confirmed_count
is never negative. -/
theorem c1_invariante_capacidade (evs : List Evento) (ops : List Op)
    (h1 : ∀ ev ∈ evs, ev.vagas_disponiveis = ev.capacidade_maxima)
    (h2 : ∀ ev ∈ evs, 0 ≤ ev.capacidade_maxima)
    (h3 : evs.Pairwise (fun a b => a.id ≠ b.id)) :
    ∀ ev ∈ (run (initDB evs) ops).eventos,
      0 ≤ (confirmedCount (run (initDB evs) ops) ev.id : Int)
      ∧ (confirmedCount (run (initDB evs) ops) ev.id : Int) ≤ ev.capacidade_maxima
      ∧ ev.vagas_disponiveis
          = ev.capacidade_maxima - (confirmedCount (run (initDB evs) ops) ev.id : Int)
      ∧ 0 ≤ ev.vagas_disponiveis := by
  intro ev hev
  have hinv := inv_run ops (initDB evs) (inv_initDB evs h1 h2 h3)
  have ha := hinv.vagas_eq ev hev
  have hb := hinv.vagas_nonneg ev hev
  exact ⟨Int.natCast_nonneg _, by omega, ha, hb⟩

/-- Witness for C1: the spec scenario — capacity 2, two enrollments, a
waitlist join, a cancellation and a check-in; the surviving event row is
(id 1, capacity 2, one open slot) and confirmed_count = 1. -/
theorem c1_witness :
    0 ≤ (confirmedCount (run (initDB [⟨1, 2, 2⟩])
          [.inscrever 1 1 "AAAA", .inscrever 2 1 "BBBB", .espera 3 1,
           .cancelar 1 1, .checkin "BBBB" 7]) 1 : Int)
    ∧ (confirmedCount (run (initDB [⟨1, 2, 2⟩])
          [.inscrever 1 1 "AAAA", .inscrever 2 1 "BBBB", .espera 3 1,
           .cancelar 1 1, .checkin "BBBB" 7]) 1 : Int) ≤ 2
    ∧ (1 : Int) = 2 - (confirmedCount (run (initDB [⟨1, 2, 2⟩])
          [.inscrever 1 1 "AAAA", .inscrever 2 1 "BBBB", .espera 3 1,
           .cancelar 1 1, .checkin "BBBB" 7]) 1 : Int)
    ∧ (0 : Int) ≤ 1 :=
  c1_invariante_capacidade [⟨1, 2, 2⟩]
    [.inscrever 1 1 "AAAA", .inscrever 2 1 "BBBB", .espera 3 1,
     .cancelar 1 1, .checkin "BBBB" 7]
    (by decide) (by decide) (by decide) ⟨1, 2, 1⟩ (by decide)

/-- C5: a check-in that succeeds was performed on a confirmed enrollment
matching the code; that enrollment becomes presente with data_checkin
recorded; and afterwards every later check-in with the same code fails,
whatever operations happen in between (exactly-once). -/
theorem c5_checkin_exatamente_uma_vez (db : DB) (c : String) (t : Nat) (db' : DB)
    (h : realizar_checkin db c t = (true, db')) :
    (∃ i ∈ db.inscricoes, i.codigo_confirmacao = c ∧ i.status = .confirmada ∧
      { i with presente := true, status := .presente, data_checkin := some t }
        ∈ db'.inscricoes)
    ∧ ∀ (ops : List Op) (t2 : Nat),
        (realizar_checkin (run db' ops) c t2).1 = false := by
  constructor
  · unfold realizar_checkin at h
    by_cases hn : db.inscricoes.countP (checkinLinha c) > 0
    case neg =>
      rw [if_neg hn] at h
      exact absurd (congrArg Prod.fst h) (by simp)
    rw [if_pos hn] at h
    have hdb : db' = { db with inscricoes := db.inscricoes.map (checkinUpdate c t) } :=
      (congrArg Prod.snd h).symm
    obtain ⟨i0, hi0, hq0⟩ := List.countP_pos_iff.mp hn
    have hq1 := hq0
    simp only [checkinLinha, Bool.and_eq_true, beq_iff_eq] at hq1
    refine ⟨i0, hi0, hq1.1, hq1.2, ?_⟩
    rw [hdb]
    have hupd : checkinUpdate c t i0
        = { i0 with presente := true, status := .presente, data_checkin := some t } := by
      simp [checkinUpdate, hq0]
    rw [← hupd]
    exact List.mem_map_of_mem _ hi0
  · intro ops t2
    exact morto_checkin_false _ c t2 (morto_run ops db' c (checkin_true_morto db c t db' h))

/-- Witness for C5: after checking in code BBBB, a later check-in with
BBBB fails even after an intervening cancellation. -/
theorem c5_witness :
    (realizar_checkin
      (run (realizar_checkin dbSemCodigo "BBBB" 5).2 [.cancelar 1 1])
      "BBBB" 9).1 = false :=
  (c5_checkin_exatamente_uma_vez dbSemCodigo "BBBB" 5
    (realizar_checkin dbSemCodigo "BBBB" 5).2 (by decide)).2 [.cancelar 1 1] 9

/-- The successful waitlist join, characterised: the inserted entry has
position COALESCE(MAX(posicao), 0) + 1 (so 1 when the event has no
entries), and positions per event stay pairwise distinct. -/
theorem espera_sucesso (db : DB) (p e : Nat)
    (hd : posicoesDistintas db)
    (h : (adicionar_lista_espera db p e).1 = true) :
    novaEspera db p e ∈ (adicionar_lista_espera db p e).2.lista_espera
    ∧ (novaEspera db p e).posicao = maxPosicao db.lista_espera e + 1
    ∧ (db.lista_espera.filter (fun w => w.evento_id == e) = [] →
        (novaEspera db p e).posicao = 1)
    ∧ (adicionar_lista_espera db p e).2.lista_espera.Pairwise
        (fun a b => a.evento_id = b.evento_id → a.posicao ≠ b.posicao) := by
  have hdup : db.lista_espera.any (fun w =>
      w.participante_id == p && w.evento_id == e) = false := by
    cases hc : db.lista_espera.any (fun w =>
        w.participante_id == p && w.evento_id == e) with
    | false => rfl
    | true =>
      unfold adicionar_lista_espera at h
      rw [if_pos hc] at h
      simp at h
  have h2 : (adicionar_lista_espera db p e).2
      = { db with
          lista_espera := db.lista_espera ++ [novaEspera db p e]
          next_espera_id := db.next_espera_id + 1 } := by
    unfold adicionar_lista_espera
    rw [if_neg (by simp [hdup])]
  have hp := pos_espera db p e hd
  unfold posicoesDistintas at hp
  rw [h2] at hp ⊢
  refine ⟨List.mem_append_right _ (by simp), rfl, ?_, hp⟩
  intro hfil
  simp [novaEspera, maxPosicao, hfil, intMax0]

/-- C9: in every state reachable from event creation, a successful
waitlist join inserts an entry at position
COALESCE(MAX(posicao), 0) + 1 for the event (position 1 when the event
has no waitlist entries), and no two waitlist entries of the same event
ever share a position. -/
theorem c9_posicao_lista_espera (evs : List Evento) (ops : List Op) (p e : Nat)
    (h : (adicionar_lista_espera (run (initDB evs) ops) p e).1 = true) :
    novaEspera (run (initDB evs) ops) p e
      ∈ (adicionar_lista_espera (run (initDB evs) ops) p e).2.lista_espera
    ∧ (novaEspera (run (initDB evs) ops) p e).posicao
        = maxPosicao (run (initDB evs) ops).lista_espera e + 1
    ∧ ((run (initDB evs) ops).lista_espera.filter
          (fun w => w.evento_id == e) = [] →
        (novaEspera (run (initDB evs) ops) p e).posicao = 1)
    ∧ (adicionar_lista_espera (run (initDB evs) ops) p e).2.lista_espera.Pairwise
        (fun a b => a.evento_id = b.evento_id → a.posicao ≠ b.posicao) := by
  have hd : posicoesDistintas (run (initDB evs) ops) :=
    pos_run ops (initDB evs) (by simp [posicoesDistintas, initDB])
  exact espera_sucesso (run (initDB evs) ops) p e hd h

/-- Witness for C9: event 1 gets one waitlist entry at position 1 and a
second at position 2; positions stay distinct. -/
theorem c9_witness :
    novaEspera (run (initDB [⟨1, 1, 1⟩]) [.inscrever 1 1 "AAAA", .espera 2 1]) 3 1
      ∈ (adicionar_lista_espera
          (run (initDB [⟨1, 1, 1⟩]) [.inscrever 1 1 "AAAA", .espera 2 1])
          3 1).2.lista_espera
    ∧ (adicionar_lista_espera
        (run (initDB [⟨1, 1, 1⟩]) [.inscrever 1 1 "AAAA", .espera 2 1])
        3 1).2.lista_espera.Pairwise
        (fun a b => a.evento_id = b.evento_id → a.posicao ≠ b.posicao) := by
  have h := c9_posicao_lista_espera [⟨1, 1, 1⟩]
    [.inscrever 1 1 "AAAA", .espera 2 1] 3 1 (by decide)
  exact ⟨h.1, h.2.2.2⟩
